import Mathlib

/-!
# todo-list-rest-api: the task store and its four HTTP handlers

A shallow embedding of `main.go`.  The package-level variable `tasks`
(a Go `map[string]Task`) becomes an explicit `Store` that every handler receives
and returns; the `http.ResponseWriter` becomes a record of what the handler wrote
(header map, status code, body).

Library code the handlers call is modelled by its documented behaviour:

* `http.Error` (net/http): deletes `Content-Length`, sets
  `Content-Type: text/plain; charset=utf-8` and `X-Content-Type-Options: nosniff`,
  writes the status code and then the message followed by a newline;
* `json.Marshal` (encoding/json) on a `Task` and on a `map[string]Task`: struct
  fields in declaration order under their `json` tags, a nil slice as `null`,
  map keys sorted, strings escaped with the default HTML-safe escaping;
* `json.Unmarshal` (encoding/json) is a parameter `unmarshal` of `postTask`: every
  theorem holds for every decoder;
* `chi.URLParam(r, "id")` is the field `id` of the request.

Go strings are modelled by Lean `String` (sequences of Unicode scalar values).
Every string that enters the store comes from a Go string literal or out of
`json.Unmarshal`, both valid UTF-8.
-/

namespace TodoList

/-! ## Data model -/

/-- Go `[]byte`. -/
abbrev Bytes := List UInt8

/-- The struct `Task`.  `Applications` is a Go slice: `none` is the nil slice, which
`json.Marshal` writes as `null`, and `some l` a non-nil slice, written as an array. -/
structure Task where
  ID : String
  Description : String
  Note : String
  Applications : Option (List String)
deriving DecidableEq, Repr

/-- The type of the package-level variable `tasks`: a Go `map[string]Task`, a finite
map with at most one entry per key and no order among its entries. -/
abbrev Store := Finmap (fun _ : String => Task)

/-- The value of key "1" in the map literal that initialises `tasks`. -/
def seedTask1 : Task :=
  { ID := "1"
    Description := "Сделать финальное задание темы REST API"
    Note := "Если сегодня сделаю, то завтра будет свободный день. Ура!"
    Applications := some ["VS Code", "Terminal", "git"] }

/-- The value of key "2" in the map literal that initialises `tasks`. -/
def seedTask2 : Task :=
  { ID := "2"
    Description := "Протестировать финальное задание с помощью Postmen"
    Note := "Лучше это делать в процессе разработки, каждый раз, когда запускаешь сервер и проверяешь хендлер"
    Applications := some ["VS Code", "Terminal", "git", "Postman"] }

/-- The initial value of the package-level variable `tasks`. -/
def tasks : Store :=
  Finmap.insert "2" seedTask2 (Finmap.insert "1" seedTask1 ∅)

/-! ## The response writer -/

/-- Go `http.Header`, restricted to single-valued keys. -/
abbrev Header := List (String × String)

/-- Go `Header.Del`. -/
def Header.Del (h : Header) (key : String) : Header :=
  h.filter fun p => p.1 ≠ key

/-- Go `Header.Set`: replaces any value already stored under `key`. -/
def Header.Set (h : Header) (key value : String) : Header :=
  (key, value) :: Header.Del h key

/-- Go `Header.Get`: the value under `key`, or the empty string. -/
def Header.Get (h : Header) (key : String) : String :=
  (h.lookup key).getD ""

/-- What a handler has written to its `http.ResponseWriter`: the header map, the
status code once `WriteHeader` (or a first `Write`) has fixed it, and the body. -/
structure ResponseWriter where
  header : Header
  code : Option Nat
  body : String
deriving DecidableEq, Repr

namespace ResponseWriter

/-- The writer a handler is called with: nothing written yet. -/
def fresh : ResponseWriter := { header := [], code := none, body := "" }

/-- The call `w.Header().Set(key, value)`. -/
def SetHeader (w : ResponseWriter) (key value : String) : ResponseWriter :=
  { w with header := Header.Set w.header key value }

/-- The call `w.Header().Del(key)`. -/
def DelHeader (w : ResponseWriter) (key : String) : ResponseWriter :=
  { w with header := Header.Del w.header key }

/-- Go `WriteHeader`: fixes the status code; a second call is ignored. -/
def WriteHeader (w : ResponseWriter) (statusCode : Nat) : ResponseWriter :=
  match w.code with
  | none => { w with code := some statusCode }
  | some _ => w

/-- Go `Write`: sends status 200 first if no status was written, then appends. -/
def Write (w : ResponseWriter) (b : String) : ResponseWriter :=
  let w1 := w.WriteHeader 200
  { w1 with body := w1.body ++ b }

/-- The status code of the response the client receives. -/
def status (w : ResponseWriter) : Nat := w.code.getD 200

/-- The `Content-Type` header of the response. -/
def contentType (w : ResponseWriter) : String := Header.Get w.header "Content-Type"

end ResponseWriter

def StatusOK : Nat := 200
def StatusCreated : Nat := 201
def StatusBadRequest : Nat := 400
def StatusInternalServerError : Nat := 500

/-- Go `http.Error(w, error, code)`. -/
def httpError (w : ResponseWriter) (error : String) (code : Nat) : ResponseWriter :=
  let w := w.DelHeader "Content-Length"
  let w := w.SetHeader "Content-Type" "text/plain; charset=utf-8"
  let w := w.SetHeader "X-Content-Type-Options" "nosniff"
  let w := w.WriteHeader code
  w.Write (error ++ "\n")

/-! ## encoding/json -/

/-- The lower-case hexadecimal digit of `n < 16` (the table `hex` of encoding/json). -/
def hexDigit (n : Nat) : Char :=
  if n < 10 then Char.ofNat (48 + n) else Char.ofNat (87 + n)

/-- How `json.Marshal` writes one character of a string: the quote and the backslash
are escaped with a backslash, backspace, form feed, newline, carriage return and tab
get their short escapes, every other control character below U+0020 and the three
HTML characters `<`, `>`, `&` are written `\u00XX`, U+2028 and U+2029 are written
with their six-character escapes, any other character is copied (the short
escapes of backspace and form feed are those of Go 1.22 and later; earlier
versions write them as `\u0008` and `\u000c`). -/
def encodeChar (c : Char) : String :=
  let n := c.toNat
  if n = 0x22 then "\\\""
  else if n = 0x5c then "\\\\"
  else if n = 0x08 then "\\b"
  else if n = 0x0c then "\\f"
  else if n = 0x0a then "\\n"
  else if n = 0x0d then "\\r"
  else if n = 0x09 then "\\t"
  else if n < 0x20 ∨ n = 0x3c ∨ n = 0x3e ∨ n = 0x26 then
    "\\u00" ++ String.mk [hexDigit (n / 16), hexDigit (n % 16)]
  else if n = 0x2028 then "\\u2028"
  else if n = 0x2029 then "\\u2029"
  else String.mk [c]

/-- A Go string as a JSON string. -/
def encodeString (s : String) : String :=
  "\"" ++ String.join (s.data.map encodeChar) ++ "\""

/-- A Go `[]string` as JSON: `null` for the nil slice, else an array. -/
def encodeStrings : Option (List String) → String
  | none => "null"
  | some l => "[" ++ ",".intercalate (l.map encodeString) ++ "]"

/-- A `Task` as a JSON object, fields in declaration order under their `json` tags. -/
def encodeTask (t : Task) : String :=
  "\x7b\"id\":" ++ encodeString t.ID
    ++ ",\"description\":" ++ encodeString t.Description
    ++ ",\"note\":" ++ encodeString t.Note
    ++ ",\"applications\":" ++ encodeStrings t.Applications ++ "\x7d"

/-- The keys of a map in the order `json.Marshal` writes them: sorted. -/
def sortedKeys (m : Store) : List String :=
  m.keys.sort (· ≤ ·)

/-- A `map[string]Task` as a JSON object, one member per key, keys sorted. -/
def encodeTasks (m : Store) : String :=
  "\x7b" ++ ",".intercalate ((sortedKeys m).filterMap fun k =>
      (m.lookup k).map fun t => encodeString k ++ ":" ++ encodeTask t) ++ "\x7d"

/-- The call `json.Marshal(task)` for a `Task`.  Marshal fails only on values it
cannot represent (channels, functions, cycles, non-finite floats, failing custom
marshalers); a struct of strings and a string slice has none, so the error result
does not occur. -/
def jsonMarshalTask (task : Task) : Except String String :=
  .ok (encodeTask task)

/-- The call `json.Marshal(tasks)` for a `map[string]Task`; see `jsonMarshalTask`. -/
def jsonMarshalTasks (m : Store) : Except String String :=
  .ok (encodeTasks m)

/-! ## Requests and handlers -/

/-- What the handlers read from an `*http.Request`: the outcome of reading
`r.Body` to its end (`buf.ReadFrom(r.Body)`: the bytes, or the text of the read
error) and the value of `chi.URLParam(r, "id")`. -/
structure Request where
  Body : Except String Bytes
  id : String

/-- The message of the not-found failure. -/
def notFoundMessage : String := "Задача не найдена"

/-- Handler of `GET /tasks`. -/
def getTasks (w : ResponseWriter) (_r : Request) (tasks : Store) : ResponseWriter × Store :=
  match jsonMarshalTasks tasks with
  | .error err => (httpError w err StatusInternalServerError, tasks)
  | .ok resp =>
    let w := w.SetHeader "Content-Type" "application/json"
    let w := w.WriteHeader StatusOK
    (w.Write resp, tasks)

/-- Handler of `POST /tasks`.  `unmarshal b` is `json.Unmarshal(b, &task)` on the
zero-valued `task`: the decoded task, or the text of the decoder's error. -/
def postTask (unmarshal : Bytes → Except String Task)
    (w : ResponseWriter) (r : Request) (tasks : Store) : ResponseWriter × Store :=
  match r.Body with
  | .error err => (httpError w err StatusBadRequest, tasks)
  | .ok buf =>
    match unmarshal buf with
    | .error err => (httpError w err StatusBadRequest, tasks)
    | .ok task =>
      let tasks := Finmap.insert task.ID task tasks
      let w := w.SetHeader "Content-Type" "application/json"
      (w.WriteHeader StatusCreated, tasks)

/-- Handler of `GET /tasks/{id}`. -/
def getTaskById (w : ResponseWriter) (r : Request) (tasks : Store) : ResponseWriter × Store :=
  let id := r.id
  match tasks.lookup id with
  | none => (httpError w notFoundMessage StatusBadRequest, tasks)
  | some task =>
    match jsonMarshalTask task with
    | .error err => (httpError w err StatusBadRequest, tasks)
    | .ok resp =>
      let w := w.SetHeader "Content-Type" "application/json"
      let w := w.WriteHeader StatusOK
      (w.Write resp, tasks)

/-- Handler of `DELETE /tasks/{id}`. -/
def deleteTaskById (w : ResponseWriter) (r : Request) (tasks : Store) : ResponseWriter × Store :=
  let id := r.id
  match tasks.lookup id with
  | none => (httpError w notFoundMessage StatusBadRequest, tasks)
  | some _ =>
    let tasks := Finmap.erase id tasks
    let w := w.SetHeader "Content-Type" "application/json"
    (w.WriteHeader StatusOK, tasks)

/-- The four routes registered in `main`. -/
inductive Route where
  | getTasks
  | postTask
  | getTaskById
  | deleteTaskById
deriving DecidableEq, Repr

/-- One served request: the router calls the handler of the route with a fresh
response writer; the store it leaves is the store the next request sees. -/
def serve (unmarshal : Bytes → Except String Task) (route : Route) (r : Request)
    (tasks : Store) : ResponseWriter × Store :=
  match route with
  | .getTasks => getTasks ResponseWriter.fresh r tasks
  | .postTask => postTask unmarshal ResponseWriter.fresh r tasks
  | .getTaskById => getTaskById ResponseWriter.fresh r tasks
  | .deleteTaskById => deleteTaskById ResponseWriter.fresh r tasks

/-- The store after a finite sequence of served requests. -/
def serveAll (unmarshal : Bytes → Except String Task) :
    List (Route × Request) → Store → Store
  | [], tasks => tasks
  | (route, r) :: rest, tasks => serveAll unmarshal rest (serve unmarshal route r tasks).2

/-! ## Reference definitions and predicates -/

/-- Reference definition of the store operation of `DELETE /tasks/{id}`, from the
words of the specification: it removes the entry if present and returns `true`; it
returns `false` without effect if absent. -/
def DeleteByID (id : String) (s : Store) : Bool × Store :=
  if id ∈ s then (true, Finmap.erase id s) else (false, s)

/-- Reference definition of the status code of `DELETE /tasks/{id}`, from the
route table of the specification: 200 on success, 400 if the id is not found. -/
def deleteStatus (found : Bool) : Nat :=
  if found then 200 else 400

/-- Every entry of the store is kept under the `ID` of its task. -/
def KeyIdAgree (s : Store) : Prop :=
  ∀ e ∈ s.entries, e.2.ID = e.1

instance (s : Store) : Decidable (KeyIdAgree s) :=
  inferInstanceAs (Decidable (∀ e ∈ s.entries, e.2.ID = e.1))

/-! ## Concrete inputs -/

/-- The task of the end-to-end scenario of the specification. -/
def scenarioTask : Task :=
  { ID := "1", Description := "d", Note := "n", Applications := some ["a", "b"] }

/-- The scenario task with another description. -/
def scenarioTaskRevised : Task :=
  { ID := "1", Description := "d2", Note := "n", Applications := some ["a", "b"] }

/-- A task under an id that the initial store does not hold. -/
def otherTask : Task :=
  { ID := "7", Description := "e", Note := "", Applications := none }

/-- A decoder for the concrete instances below.  It stands for `json.Unmarshal` on
four inputs: the empty input is rejected with the error text encoding/json gives
for it, and three one-byte tokens stand for bodies that decode to the three tasks
above. -/
def sampleUnmarshal : Bytes → Except String Task
  | [] => .error "unexpected end of JSON input"
  | [1] => .ok scenarioTask
  | [2] => .ok scenarioTaskRevised
  | _ => .ok otherTask

/-- A task whose id is the key "1" of the initial store, with other contents. -/
def collidingTask : Task :=
  { ID := "1", Description := "x", Note := "", Applications := none }

/-- A decoder for the listing instance: the empty input stands for a body that
decodes to `collidingTask`, any other input for one that decodes to `otherTask`. -/
def collidingUnmarshal : Bytes → Except String Task
  | [] => .ok collidingTask
  | _ => .ok otherTask

/-! ## Lemmas on the response writer -/

theorem httpError_fresh (error : String) (code : Nat) :
    httpError ResponseWriter.fresh error code =
      { header := [("X-Content-Type-Options", "nosniff"),
                   ("Content-Type", "text/plain; charset=utf-8")]
        code := some code
        body := error ++ "\n" } := by
  simp [httpError, ResponseWriter.fresh, ResponseWriter.DelHeader, ResponseWriter.SetHeader,
    ResponseWriter.WriteHeader, ResponseWriter.Write, Header.Del, Header.Set]

theorem httpError_fresh_status (error : String) (code : Nat) :
    (httpError ResponseWriter.fresh error code).status = code := by
  simp [httpError_fresh, ResponseWriter.status]

theorem httpError_fresh_body (error : String) (code : Nat) :
    (httpError ResponseWriter.fresh error code).body = error ++ "\n" := by
  simp [httpError_fresh]

theorem httpError_fresh_contentType (error : String) (code : Nat) :
    (httpError ResponseWriter.fresh error code).contentType = "text/plain; charset=utf-8" := by
  simp [httpError_fresh, ResponseWriter.contentType, Header.Get, List.lookup]

/-! ## Lemmas on the handlers -/

theorem getTaskById_of_lookup_some {s : Store} {id : String} {t : Task}
    (h : s.lookup id = some t) (body : Except String Bytes) :
    getTaskById ResponseWriter.fresh ⟨body, id⟩ s =
      ({ header := [("Content-Type", "application/json")]
         code := some 200
         body := encodeTask t }, s) := by
  simp [getTaskById, h, jsonMarshalTask, ResponseWriter.fresh, ResponseWriter.SetHeader,
    ResponseWriter.WriteHeader, ResponseWriter.Write, Header.Del, Header.Set, StatusOK]

theorem getTaskById_of_lookup_none {s : Store} {id : String}
    (h : s.lookup id = none) (body : Except String Bytes) :
    getTaskById ResponseWriter.fresh ⟨body, id⟩ s =
      (httpError ResponseWriter.fresh notFoundMessage StatusBadRequest, s) := by
  simp [getTaskById, h]

theorem deleteTaskById_of_lookup_some {s : Store} {id : String} {t : Task}
    (h : s.lookup id = some t) (body : Except String Bytes) :
    deleteTaskById ResponseWriter.fresh ⟨body, id⟩ s =
      ({ header := [("Content-Type", "application/json")]
         code := some 200
         body := "" }, Finmap.erase id s) := by
  simp [deleteTaskById, h, ResponseWriter.fresh, ResponseWriter.SetHeader,
    ResponseWriter.WriteHeader, Header.Del, Header.Set, StatusOK]

theorem deleteTaskById_of_lookup_none {s : Store} {id : String}
    (h : s.lookup id = none) (body : Except String Bytes) :
    deleteTaskById ResponseWriter.fresh ⟨body, id⟩ s =
      (httpError ResponseWriter.fresh notFoundMessage StatusBadRequest, s) := by
  simp [deleteTaskById, h]

theorem postTask_of_decoded {unmarshal : Bytes → Except String Task} {b : Bytes} {t : Task}
    (h : unmarshal b = .ok t) (id : String) (s : Store) :
    postTask unmarshal ResponseWriter.fresh ⟨.ok b, id⟩ s =
      ({ header := [("Content-Type", "application/json")]
         code := some 201
         body := "" }, Finmap.insert t.ID t s) := by
  simp [postTask, h, ResponseWriter.fresh, ResponseWriter.SetHeader,
    ResponseWriter.WriteHeader, Header.Del, Header.Set, StatusCreated]

theorem postTask_of_undecodable {unmarshal : Bytes → Except String Task} {b : Bytes}
    {e : String} (h : unmarshal b = .error e) (id : String) (s : Store) :
    postTask unmarshal ResponseWriter.fresh ⟨.ok b, id⟩ s =
      (httpError ResponseWriter.fresh e StatusBadRequest, s) := by
  simp [postTask, h]

theorem postTask_of_unread (unmarshal : Bytes → Except String Task) (e : String)
    (id : String) (s : Store) :
    postTask unmarshal ResponseWriter.fresh ⟨.error e, id⟩ s =
      (httpError ResponseWriter.fresh e StatusBadRequest, s) := by
  simp [postTask]

theorem getTasks_fresh (r : Request) (s : Store) :
    getTasks ResponseWriter.fresh r s =
      ({ header := [("Content-Type", "application/json")]
         code := some 200
         body := encodeTasks s }, s) := by
  simp [getTasks, jsonMarshalTasks, ResponseWriter.fresh, ResponseWriter.SetHeader,
    ResponseWriter.WriteHeader, ResponseWriter.Write, Header.Del, Header.Set, StatusOK]

theorem lookup_mem_count (s : Store) (k : String) (h : k ∈ s) :
    Multiset.count k s.entries.keys = 1 := by
  have hk : k ∈ s.keys.val := Finmap.mem_keys.mpr h
  have hc := Multiset.count_eq_one_of_mem s.keys.nodup hk
  simpa [Finmap.keys] using hc

/-! ## The claims -/

/-- C1. Round trip of `postTask` then `getTaskById`: for every store, every decoder
and every body that decodes to a task `t`, `postTask` answers 201, and on the store
it leaves `getTaskById` with path parameter `t.ID` answers 200 with a body that is
the serialization `json.Marshal` gives for a task whose id, description, note and
applications are those of `t` (the body is `encodeTask t`). -/
theorem postTask_getTaskById_roundtrip (unmarshal : Bytes → Except String Task)
    (s : Store) (b : Bytes) (t : Task) (postId : String) (getBody : Except String Bytes)
    (hdec : unmarshal b = .ok t) :
    (postTask unmarshal ResponseWriter.fresh ⟨.ok b, postId⟩ s).1.status = 201 ∧
    (getTaskById ResponseWriter.fresh ⟨getBody, t.ID⟩
        (postTask unmarshal ResponseWriter.fresh ⟨.ok b, postId⟩ s).2).1.status = 200 ∧
    (getTaskById ResponseWriter.fresh ⟨getBody, t.ID⟩
        (postTask unmarshal ResponseWriter.fresh ⟨.ok b, postId⟩ s).2).1.body = encodeTask t ∧
    ∃ t' : Task, t'.ID = t.ID ∧ t'.Description = t.Description ∧ t'.Note = t.Note ∧
      t'.Applications = t.Applications ∧
      jsonMarshalTask t' = .ok (getTaskById ResponseWriter.fresh ⟨getBody, t.ID⟩
        (postTask unmarshal ResponseWriter.fresh ⟨.ok b, postId⟩ s).2).1.body := by
  have hl : (Finmap.insert t.ID t s).lookup t.ID = some t := Finmap.lookup_insert s
  rw [postTask_of_decoded hdec, getTaskById_of_lookup_some hl]
  refine ⟨rfl, rfl, rfl, t, rfl, rfl, rfl, rfl, rfl⟩

/-- C3. Upsert overwrite: for every store, every id `X` (the empty string included)
and every two tasks `t1`, `t2` that both have id `X` (whether or not their
descriptions differ), after `postTask` stores `t1` and then `t2` the store holds
exactly one entry under key `X`, that entry is `t2`, every entry under another key
is unchanged, and `getTaskById` with path parameter `X` answers 200 with the
serialization of `t2`, which carries the description of `t2`. -/
theorem postTask_twice_overwrites (unmarshal : Bytes → Except String Task)
    (s : Store) (X : String) (b1 b2 : Bytes) (t1 t2 : Task) (id1 id2 : String)
    (getBody : Except String Bytes)
    (hdec1 : unmarshal b1 = .ok t1) (hdec2 : unmarshal b2 = .ok t2)
    (hid1 : t1.ID = X) (hid2 : t2.ID = X) :
    Multiset.count X
      (postTask unmarshal ResponseWriter.fresh ⟨.ok b2, id2⟩
        (postTask unmarshal ResponseWriter.fresh ⟨.ok b1, id1⟩ s).2).2.entries.keys = 1 ∧
    (postTask unmarshal ResponseWriter.fresh ⟨.ok b2, id2⟩
        (postTask unmarshal ResponseWriter.fresh ⟨.ok b1, id1⟩ s).2).2.lookup X = some t2 ∧
    (∀ k : String, k ≠ X →
      (postTask unmarshal ResponseWriter.fresh ⟨.ok b2, id2⟩
        (postTask unmarshal ResponseWriter.fresh ⟨.ok b1, id1⟩ s).2).2.lookup k
        = s.lookup k) ∧
    (getTaskById ResponseWriter.fresh ⟨getBody, X⟩
      (postTask unmarshal ResponseWriter.fresh ⟨.ok b2, id2⟩
        (postTask unmarshal ResponseWriter.fresh ⟨.ok b1, id1⟩ s).2).2).1.status = 200 ∧
    (getTaskById ResponseWriter.fresh ⟨getBody, X⟩
      (postTask unmarshal ResponseWriter.fresh ⟨.ok b2, id2⟩
        (postTask unmarshal ResponseWriter.fresh ⟨.ok b1, id1⟩ s).2).2).1.body
      = encodeTask t2 ∧
    ∃ t' : Task, t'.Description = t2.Description ∧
      jsonMarshalTask t' = .ok (getTaskById ResponseWriter.fresh ⟨getBody, X⟩
        (postTask unmarshal ResponseWriter.fresh ⟨.ok b2, id2⟩
          (postTask unmarshal ResponseWriter.fresh ⟨.ok b1, id1⟩ s).2).2).1.body := by
  rw [postTask_of_decoded hdec1, postTask_of_decoded hdec2]
  subst hid1
  rw [hid2]
  have hl : (Finmap.insert t1.ID t2 (Finmap.insert t1.ID t1 s)).lookup t1.ID = some t2 :=
    Finmap.lookup_insert _
  rw [getTaskById_of_lookup_some hl]
  refine ⟨lookup_mem_count _ _ (Finmap.mem_of_lookup_eq_some hl), hl, ?_, rfl, rfl,
    t2, rfl, rfl⟩
  intro k hk
  rw [Finmap.lookup_insert_of_ne _ hk, Finmap.lookup_insert_of_ne _ hk]

/-- C5. Delete then get: for every store and every id `X`, if `deleteTaskById` with
path parameter `X` answers 200, then on the store it leaves `getTaskById` with path
parameter `X` answers with the not-found failure (status 400, the not-found
message), and so does a second `deleteTaskById` with path parameter `X`. -/
theorem deleteTaskById_then_not_found (s : Store) (X : String)
    (delBody getBody delBody2 : Except String Bytes)
    (hdel : (deleteTaskById ResponseWriter.fresh ⟨delBody, X⟩ s).1.status = 200) :
    getTaskById ResponseWriter.fresh ⟨getBody, X⟩
        (deleteTaskById ResponseWriter.fresh ⟨delBody, X⟩ s).2
      = (httpError ResponseWriter.fresh notFoundMessage StatusBadRequest,
          (deleteTaskById ResponseWriter.fresh ⟨delBody, X⟩ s).2) ∧
    (getTaskById ResponseWriter.fresh ⟨getBody, X⟩
        (deleteTaskById ResponseWriter.fresh ⟨delBody, X⟩ s).2).1.status = 400 ∧
    (deleteTaskById ResponseWriter.fresh ⟨delBody2, X⟩
        (deleteTaskById ResponseWriter.fresh ⟨delBody, X⟩ s).2).1.status = 400 := by
  cases hl : s.lookup X with
  | none =>
    rw [deleteTaskById_of_lookup_none hl, httpError_fresh_status] at hdel
    simp [StatusBadRequest] at hdel
  | some t =>
    rw [deleteTaskById_of_lookup_some hl]
    have he : (Finmap.erase X s).lookup X = none := Finmap.lookup_erase X s
    rw [getTaskById_of_lookup_none he, deleteTaskById_of_lookup_none he]
    exact ⟨rfl, httpError_fresh_status _ _, httpError_fresh_status _ _⟩

/-- C6. `deleteTaskById` against its reference definition: for every store `s` and
every id `X`, the status code and the resulting store are those of the reference
`DeleteByID` (200 and `s` with key `X` erased when `X` is a key, 400 and `s` itself
when it is not); when `X` is a key the body is empty, `X` is no longer a key and
every other entry is unchanged; when `X` is not a key the store equals `s`. -/
theorem deleteTaskById_eq_reference (s : Store) (X : String) (body : Except String Bytes) :
    ((deleteTaskById ResponseWriter.fresh ⟨body, X⟩ s).1.status,
      (deleteTaskById ResponseWriter.fresh ⟨body, X⟩ s).2)
      = (deleteStatus (DeleteByID X s).1, (DeleteByID X s).2) ∧
    (if X ∈ s then
      (deleteTaskById ResponseWriter.fresh ⟨body, X⟩ s).1.status = 200 ∧
      (deleteTaskById ResponseWriter.fresh ⟨body, X⟩ s).1.body = "" ∧
      (deleteTaskById ResponseWriter.fresh ⟨body, X⟩ s).2 = Finmap.erase X s ∧
      (deleteTaskById ResponseWriter.fresh ⟨body, X⟩ s).2.lookup X = none ∧
      ∀ k : String, k ≠ X →
        (deleteTaskById ResponseWriter.fresh ⟨body, X⟩ s).2.lookup k = s.lookup k
    else
      (deleteTaskById ResponseWriter.fresh ⟨body, X⟩ s).1.status = 400 ∧
      (deleteTaskById ResponseWriter.fresh ⟨body, X⟩ s).2 = s) := by
  cases hl : s.lookup X with
  | none =>
    have hx : X ∉ s := Finmap.lookup_eq_none.mp hl
    rw [deleteTaskById_of_lookup_none hl, httpError_fresh_status]
    simp [DeleteByID, deleteStatus, hx, StatusBadRequest]
  | some t =>
    have hx : X ∈ s := Finmap.mem_of_lookup_eq_some hl
    rw [deleteTaskById_of_lookup_some hl]
    simp only [DeleteByID, deleteStatus, hx, if_true, ResponseWriter.status, Option.getD_some,
      Finmap.lookup_erase, true_and]
    intro k hk
    exact Finmap.lookup_erase_ne hk

/-- C7. Malformed input is rejected atomically: for every store `s` and every
decoder, a body the decoder rejects with error text `e` makes `postTask` call
`http.Error` with message `e` and status 400 (the body written is `e` and a newline)
and leaves the store equal to `s`; a body that cannot be read is answered the same
way with the text of the read error; and `postTask` answers 201 with an empty body
exactly when the body is read and decodes. -/
theorem postTask_malformed_atomic (unmarshal : Bytes → Except String Task)
    (s : Store) (id : String) :
    (∀ (b : Bytes) (e : String), unmarshal b = .error e →
      postTask unmarshal ResponseWriter.fresh ⟨.ok b, id⟩ s
        = (httpError ResponseWriter.fresh e StatusBadRequest, s) ∧
      (postTask unmarshal ResponseWriter.fresh ⟨.ok b, id⟩ s).1.status = 400 ∧
      (postTask unmarshal ResponseWriter.fresh ⟨.ok b, id⟩ s).1.body = e ++ "\n" ∧
      (postTask unmarshal ResponseWriter.fresh ⟨.ok b, id⟩ s).2 = s) ∧
    (∀ e : String,
      (postTask unmarshal ResponseWriter.fresh ⟨.error e, id⟩ s).1.status = 400 ∧
      (postTask unmarshal ResponseWriter.fresh ⟨.error e, id⟩ s).1.body = e ++ "\n" ∧
      (postTask unmarshal ResponseWriter.fresh ⟨.error e, id⟩ s).2 = s) ∧
    (∀ body : Except String Bytes,
      ((postTask unmarshal ResponseWriter.fresh ⟨body, id⟩ s).1.status = 201 ∧
        (postTask unmarshal ResponseWriter.fresh ⟨body, id⟩ s).1.body = "") ↔
      ∃ (b : Bytes) (t : Task), body = .ok b ∧ unmarshal b = .ok t) := by
  refine ⟨?_, ?_, ?_⟩
  · intro b e h
    rw [postTask_of_undecodable h]
    exact ⟨rfl, httpError_fresh_status _ _, httpError_fresh_body _ _, rfl⟩
  · intro e
    rw [postTask_of_unread]
    exact ⟨httpError_fresh_status _ _, httpError_fresh_body _ _, rfl⟩
  · intro body
    cases body with
    | error e =>
      rw [postTask_of_unread, httpError_fresh_status]
      simp [StatusBadRequest]
    | ok b =>
      cases h : unmarshal b with
      | error e =>
        rw [postTask_of_undecodable h, httpError_fresh_status]
        simp [StatusBadRequest, h]
      | ok t =>
        rw [postTask_of_decoded h]
        simp [ResponseWriter.status, h]

/-- C8. `getTaskById` is a pure lookup: for every store `s` and every id `X`, the
store after the call equals `s`; the response is 200 with the serialization of the
task stored under `X` exactly when `X` is a key of `s`, and 400 exactly when it is
not; and `json.Marshal` of a task never takes the failure branch. -/
theorem getTaskById_pure_lookup (s : Store) (X : String) (body : Except String Bytes) :
    (getTaskById ResponseWriter.fresh ⟨body, X⟩ s).2 = s ∧
    (((getTaskById ResponseWriter.fresh ⟨body, X⟩ s).1.status = 200 ∧
        ∃ t : Task, s.lookup X = some t ∧
          jsonMarshalTask t = .ok (getTaskById ResponseWriter.fresh ⟨body, X⟩ s).1.body) ↔
      X ∈ s) ∧
    ((getTaskById ResponseWriter.fresh ⟨body, X⟩ s).1.status = 400 ↔ X ∉ s) ∧
    (∀ t : Task, ∃ resp : String, jsonMarshalTask t = .ok resp) := by
  refine ⟨?_, ?_, ?_, fun t => ⟨encodeTask t, rfl⟩⟩
  · cases hl : s.lookup X with
    | none => rw [getTaskById_of_lookup_none hl]
    | some t => rw [getTaskById_of_lookup_some hl]
  · cases hl : s.lookup X with
    | none =>
      have hx : X ∉ s := Finmap.lookup_eq_none.mp hl
      simp [hx]
    | some t =>
      have hx : X ∈ s := Finmap.mem_of_lookup_eq_some hl
      rw [getTaskById_of_lookup_some hl]
      simp [hx, ResponseWriter.status, jsonMarshalTask]
  · cases hl : s.lookup X with
    | none =>
      have hx : X ∉ s := Finmap.lookup_eq_none.mp hl
      rw [getTaskById_of_lookup_none hl, httpError_fresh_status]
      simp [hx, StatusBadRequest]
    | some t =>
      have hx : X ∈ s := Finmap.mem_of_lookup_eq_some hl
      rw [getTaskById_of_lookup_some hl]
      simp [hx, ResponseWriter.status]

/-! ## The key/id invariant -/

theorem keyIdAgree_iff_lookup (s : Store) :
    KeyIdAgree s ↔ ∀ (k : String) (t : Task), s.lookup k = some t → t.ID = k := by
  constructor
  · intro h k t hl
    exact h ⟨k, t⟩ (Finmap.lookup_eq_some_iff.mp hl)
  · intro h e he
    exact h e.1 e.2 (Finmap.lookup_eq_some_iff.mpr he)

theorem keyIdAgree_insert {s : Store} (h : KeyIdAgree s) (t : Task) :
    KeyIdAgree (Finmap.insert t.ID t s) := by
  rw [keyIdAgree_iff_lookup] at h ⊢
  intro k t' hl
  by_cases hk : k = t.ID
  · subst hk
    rw [Finmap.lookup_insert] at hl
    cases hl
    rfl
  · rw [Finmap.lookup_insert_of_ne _ hk] at hl
    exact h k t' hl

theorem keyIdAgree_erase {s : Store} (h : KeyIdAgree s) (X : String) :
    KeyIdAgree (Finmap.erase X s) := by
  rw [keyIdAgree_iff_lookup] at h ⊢
  intro k t' hl
  by_cases hk : k = X
  · subst hk
    rw [Finmap.lookup_erase] at hl
    cases hl
  · rw [Finmap.lookup_erase_ne hk] at hl
    exact h k t' hl

theorem keyIdAgree_tasks : KeyIdAgree tasks := by
  rw [keyIdAgree_iff_lookup]
  intro k t hl
  unfold tasks at hl
  by_cases h2 : k = "2"
  · subst h2
    rw [Finmap.lookup_insert] at hl
    cases hl
    rfl
  · rw [Finmap.lookup_insert_of_ne _ h2] at hl
    by_cases h1 : k = "1"
    · subst h1
      rw [Finmap.lookup_insert] at hl
      cases hl
      rfl
    · rw [Finmap.lookup_insert_of_ne _ h1] at hl
      simp at hl

theorem keyIdAgree_serve (unmarshal : Bytes → Except String Task) (route : Route)
    (r : Request) {s : Store} (h : KeyIdAgree s) :
    KeyIdAgree (serve unmarshal route r s).2 := by
  obtain ⟨body, id⟩ := r
  cases route with
  | getTasks => simpa [serve, getTasks_fresh] using h
  | postTask =>
    cases body with
    | error e => simpa [serve, postTask_of_unread] using h
    | ok b =>
      cases hd : unmarshal b with
      | error e => simpa [serve, postTask_of_undecodable hd] using h
      | ok t => simpa [serve, postTask_of_decoded hd] using keyIdAgree_insert h t
  | getTaskById =>
    cases hl : s.lookup id with
    | none => simpa [serve, getTaskById_of_lookup_none hl] using h
    | some t => simpa [serve, getTaskById_of_lookup_some hl] using h
  | deleteTaskById =>
    cases hl : s.lookup id with
    | none => simpa [serve, deleteTaskById_of_lookup_none hl] using h
    | some t => simpa [serve, deleteTaskById_of_lookup_some hl] using keyIdAgree_erase h id

theorem keyIdAgree_serveAll (unmarshal : Bytes → Except String Task)
    (reqs : List (Route × Request)) :
    ∀ s : Store, KeyIdAgree s → KeyIdAgree (serveAll unmarshal reqs s) := by
  induction reqs with
  | nil => intro s h; exact h
  | cons q rest ih =>
    intro s h
    obtain ⟨route, r⟩ := q
    exact ih _ (keyIdAgree_serve unmarshal route r h)

/-- C10. Key/id agreement is a reachable-state invariant: in the initial store and
in every store reached from it by any finite sequence of `getTasks`, `postTask`,
`getTaskById` and `deleteTaskById` requests (any bodies, any path parameters, any
decoder), every entry is kept under the `ID` of its task; equivalently, whenever a
lookup of key `k` finds a task, that task has `ID = k`. -/
theorem keyIdAgree_reachable (unmarshal : Bytes → Except String Task)
    (reqs : List (Route × Request)) :
    KeyIdAgree (serveAll unmarshal reqs tasks) ∧
    ∀ (k : String) (t : Task),
      (serveAll unmarshal reqs tasks).lookup k = some t → t.ID = k :=
  ⟨keyIdAgree_serveAll unmarshal reqs tasks keyIdAgree_tasks,
    (keyIdAgree_iff_lookup _).mp (keyIdAgree_serveAll unmarshal reqs tasks keyIdAgree_tasks)⟩

/-- C4, as stated, fails when a posted id is a key of the initial store.  Posting
`collidingTask` (id "1") and then `otherTask` (id "7"), two tasks with distinct ids,
leaves key "1" holding `collidingTask`: the initial entry "1" → `seedTask1` is no
longer an entry, so the entries are not "A → taskA, B → taskB and the pre-seeded
entries". -/
theorem listing_loses_overwritten_seed_entry :
    collidingUnmarshal [] = .ok collidingTask ∧
    collidingUnmarshal [0] = .ok otherTask ∧
    collidingTask.ID ≠ otherTask.ID ∧
    tasks.lookup "1" = some seedTask1 ∧
    (postTask collidingUnmarshal ResponseWriter.fresh ⟨.ok [0], ""⟩
      (postTask collidingUnmarshal ResponseWriter.fresh ⟨.ok [], ""⟩ tasks).2).2.lookup "1"
      = some collidingTask ∧
    (postTask collidingUnmarshal ResponseWriter.fresh ⟨.ok [0], ""⟩
      (postTask collidingUnmarshal ResponseWriter.fresh ⟨.ok [], ""⟩ tasks).2).2.lookup "1"
      ≠ some seedTask1 ∧
    ¬ (∀ (k : String) (t : Task),
        (postTask collidingUnmarshal ResponseWriter.fresh ⟨.ok [0], ""⟩
          (postTask collidingUnmarshal ResponseWriter.fresh ⟨.ok [], ""⟩ tasks).2).2.lookup k
          = some t ↔
        (k = collidingTask.ID ∧ t = collidingTask) ∨ (k = otherTask.ID ∧ t = otherTask) ∨
          tasks.lookup k = some t) := by
  refine ⟨rfl, rfl, by decide, by decide, by decide, by decide, ?_⟩
  intro h
  have h1 := (h "1" seedTask1).mpr (Or.inr (Or.inr (by decide)))
  revert h1
  decide

/-- C4, amended. Listing completeness: starting from the initial store (keys "1"
and "2"), for every two tasks `tA`, `tB` with distinct ids, after `postTask` stores
`tA` and then `tB`, `getTasks` answers 200 with the serialization of the store it
finds (and leaves it unchanged), and the entries of that store are exactly
`tA.ID → tA`, `tB.ID → tB` and the initial entries under keys other than `tA.ID` and
`tB.ID`; its keys are `tA.ID`, `tB.ID`, "1" and "2" and no other. -/
theorem getTasks_after_two_posts (unmarshal : Bytes → Except String Task)
    (bA bB : Bytes) (tA tB : Task) (idA idB : String) (r : Request)
    (hdecA : unmarshal bA = .ok tA) (hdecB : unmarshal bB = .ok tB)
    (hne : tA.ID ≠ tB.ID) :
    (getTasks ResponseWriter.fresh r
      (postTask unmarshal ResponseWriter.fresh ⟨.ok bB, idB⟩
        (postTask unmarshal ResponseWriter.fresh ⟨.ok bA, idA⟩ tasks).2).2).1.status = 200 ∧
    jsonMarshalTasks
      (postTask unmarshal ResponseWriter.fresh ⟨.ok bB, idB⟩
        (postTask unmarshal ResponseWriter.fresh ⟨.ok bA, idA⟩ tasks).2).2
      = .ok (getTasks ResponseWriter.fresh r
          (postTask unmarshal ResponseWriter.fresh ⟨.ok bB, idB⟩
            (postTask unmarshal ResponseWriter.fresh ⟨.ok bA, idA⟩ tasks).2).2).1.body ∧
    (getTasks ResponseWriter.fresh r
      (postTask unmarshal ResponseWriter.fresh ⟨.ok bB, idB⟩
        (postTask unmarshal ResponseWriter.fresh ⟨.ok bA, idA⟩ tasks).2).2).2
      = (postTask unmarshal ResponseWriter.fresh ⟨.ok bB, idB⟩
        (postTask unmarshal ResponseWriter.fresh ⟨.ok bA, idA⟩ tasks).2).2 ∧
    (∀ (k : String) (t : Task),
      (postTask unmarshal ResponseWriter.fresh ⟨.ok bB, idB⟩
        (postTask unmarshal ResponseWriter.fresh ⟨.ok bA, idA⟩ tasks).2).2.lookup k = some t ↔
      (k = tA.ID ∧ t = tA) ∨ (k = tB.ID ∧ t = tB) ∨
        (k ≠ tA.ID ∧ k ≠ tB.ID ∧ tasks.lookup k = some t)) ∧
    (∀ k : String,
      k ∈ (postTask unmarshal ResponseWriter.fresh ⟨.ok bB, idB⟩
        (postTask unmarshal ResponseWriter.fresh ⟨.ok bA, idA⟩ tasks).2).2 ↔
      k = tA.ID ∨ k = tB.ID ∨ k = "1" ∨ k = "2") := by
  rw [postTask_of_decoded hdecA, postTask_of_decoded hdecB, getTasks_fresh]
  refine ⟨rfl, rfl, rfl, ?_, ?_⟩
  · intro k t
    by_cases hB : k = tB.ID
    · subst hB
      rw [Finmap.lookup_insert]
      have hne' : ¬ tB.ID = tA.ID := fun h => hne h.symm
      simp [hne', eq_comm]
    · rw [Finmap.lookup_insert_of_ne _ hB]
      by_cases hA : k = tA.ID
      · subst hA
        rw [Finmap.lookup_insert]
        simp [hB, eq_comm]
      · rw [Finmap.lookup_insert_of_ne _ hA]
        simp [hA, hB]
  · intro k
    simp only [Finmap.mem_insert, tasks, Finmap.not_mem_empty, or_false]
    tauto

/-- C2. The failure branches do not carry `Content-Type: application/json`.  Every
response `http.Error` writes has `Content-Type: text/plain; charset=utf-8`; on the
initial store, `GET /tasks/3`, `DELETE /tasks/3` and a `POST /tasks` whose body does
not decode all answer 400 with that content type, while the success branches of the
four handlers answer with `application/json`. -/
theorem failure_branches_contentType_text_plain :
    (∀ (e : String) (code : Nat),
      (httpError ResponseWriter.fresh e code).contentType = "text/plain; charset=utf-8") ∧
    (getTaskById ResponseWriter.fresh ⟨.ok [], "3"⟩ tasks).1.status = 400 ∧
    (getTaskById ResponseWriter.fresh ⟨.ok [], "3"⟩ tasks).1.contentType
      = "text/plain; charset=utf-8" ∧
    (getTaskById ResponseWriter.fresh ⟨.ok [], "3"⟩ tasks).1.contentType
      ≠ "application/json" ∧
    (deleteTaskById ResponseWriter.fresh ⟨.ok [], "3"⟩ tasks).1.status = 400 ∧
    (deleteTaskById ResponseWriter.fresh ⟨.ok [], "3"⟩ tasks).1.contentType
      = "text/plain; charset=utf-8" ∧
    sampleUnmarshal [] = .error "unexpected end of JSON input" ∧
    (postTask sampleUnmarshal ResponseWriter.fresh ⟨.ok [], ""⟩ tasks).1.status = 400 ∧
    (postTask sampleUnmarshal ResponseWriter.fresh ⟨.ok [], ""⟩ tasks).1.contentType
      = "text/plain; charset=utf-8" ∧
    (getTasks ResponseWriter.fresh ⟨.ok [], ""⟩ tasks).1.contentType = "application/json" ∧
    (postTask sampleUnmarshal ResponseWriter.fresh ⟨.ok [1], ""⟩ tasks).1.contentType
      = "application/json" ∧
    (getTaskById ResponseWriter.fresh ⟨.ok [], "1"⟩ tasks).1.contentType
      = "application/json" ∧
    (deleteTaskById ResponseWriter.fresh ⟨.ok [], "1"⟩ tasks).1.contentType
      = "application/json" := by
  refine ⟨httpError_fresh_contentType, by decide, by decide, by decide, by decide, by decide,
    rfl, by decide, by decide, ?_, by decide, by decide, by decide⟩
  rw [getTasks_fresh]
  decide

/-! ## Concrete instances -/

/-- C1 at the end-to-end scenario of the specification: on the initial store, a
body that decodes to `scenarioTask` is answered 201, and `GET /tasks/1` then
answers 200 with the JSON text of that task. -/
theorem postTask_getTaskById_roundtrip_witness :
    sampleUnmarshal [1] = .ok scenarioTask ∧
    (postTask sampleUnmarshal ResponseWriter.fresh ⟨.ok [1], ""⟩ tasks).1.status = 201 ∧
    (getTaskById ResponseWriter.fresh ⟨.ok [], "1"⟩
      (postTask sampleUnmarshal ResponseWriter.fresh ⟨.ok [1], ""⟩ tasks).2).1.status = 200 ∧
    (getTaskById ResponseWriter.fresh ⟨.ok [], "1"⟩
      (postTask sampleUnmarshal ResponseWriter.fresh ⟨.ok [1], ""⟩ tasks).2).1.body
      = "\x7b\"id\":\"1\",\"description\":\"d\",\"note\":\"n\",\"applications\":[\"a\",\"b\"]\x7d" :=
  have h := postTask_getTaskById_roundtrip sampleUnmarshal tasks [1] scenarioTask ""
    (.ok []) rfl
  ⟨rfl, h.1, h.2.1, h.2.2.1.trans (by decide)⟩

/-- C3 on the initial store: `scenarioTask` and then `scenarioTaskRevised`, both
with id "1" and with descriptions "d" and "d2", leave one entry under "1", the
second task. -/
theorem postTask_twice_overwrites_witness :
    sampleUnmarshal [1] = .ok scenarioTask ∧
    sampleUnmarshal [2] = .ok scenarioTaskRevised ∧
    scenarioTask.ID = "1" ∧ scenarioTaskRevised.ID = "1" ∧
    scenarioTask.Description ≠ scenarioTaskRevised.Description ∧
    Multiset.count "1"
      (postTask sampleUnmarshal ResponseWriter.fresh ⟨.ok [2], ""⟩
        (postTask sampleUnmarshal ResponseWriter.fresh ⟨.ok [1], ""⟩ tasks).2).2.entries.keys
      = 1 ∧
    (postTask sampleUnmarshal ResponseWriter.fresh ⟨.ok [2], ""⟩
        (postTask sampleUnmarshal ResponseWriter.fresh ⟨.ok [1], ""⟩ tasks).2).2.lookup "1"
      = some scenarioTaskRevised ∧
    (getTaskById ResponseWriter.fresh ⟨.ok [], "1"⟩
      (postTask sampleUnmarshal ResponseWriter.fresh ⟨.ok [2], ""⟩
        (postTask sampleUnmarshal ResponseWriter.fresh ⟨.ok [1], ""⟩ tasks).2).2).1.body
      = encodeTask scenarioTaskRevised :=
  have h := postTask_twice_overwrites sampleUnmarshal tasks "1" [1] [2] scenarioTask
    scenarioTaskRevised "" "" (.ok []) rfl rfl rfl rfl
  ⟨rfl, rfl, rfl, rfl, by decide, h.1, h.2.1, h.2.2.2.2.1⟩

/-- C4 (amended) with the ids "1" and "7": the listing holds the two posted tasks
and the initial entry "2", and key "1" holds the posted task. -/
theorem getTasks_after_two_posts_witness :
    sampleUnmarshal [1] = .ok scenarioTask ∧
    sampleUnmarshal [3] = .ok otherTask ∧
    scenarioTask.ID ≠ otherTask.ID ∧
    (getTasks ResponseWriter.fresh ⟨.ok [], ""⟩
      (postTask sampleUnmarshal ResponseWriter.fresh ⟨.ok [3], ""⟩
        (postTask sampleUnmarshal ResponseWriter.fresh ⟨.ok [1], ""⟩ tasks).2).2).1.status
      = 200 ∧
    ∀ k : String,
      k ∈ (postTask sampleUnmarshal ResponseWriter.fresh ⟨.ok [3], ""⟩
        (postTask sampleUnmarshal ResponseWriter.fresh ⟨.ok [1], ""⟩ tasks).2).2 ↔
      k = scenarioTask.ID ∨ k = otherTask.ID ∨ k = "1" ∨ k = "2" :=
  have h := getTasks_after_two_posts sampleUnmarshal [1] [3] scenarioTask otherTask "" ""
    ⟨.ok [], ""⟩ rfl rfl (by decide)
  ⟨rfl, rfl, by decide, h.1, h.2.2.2.2⟩

/-- C5 on the initial store with id "1": the delete answers 200, the get and the
second delete answer 400. -/
theorem deleteTaskById_then_not_found_witness :
    (deleteTaskById ResponseWriter.fresh ⟨.ok [], "1"⟩ tasks).1.status = 200 ∧
    (getTaskById ResponseWriter.fresh ⟨.ok [], "1"⟩
      (deleteTaskById ResponseWriter.fresh ⟨.ok [], "1"⟩ tasks).2).1.status = 400 ∧
    (deleteTaskById ResponseWriter.fresh ⟨.ok [], "1"⟩
      (deleteTaskById ResponseWriter.fresh ⟨.ok [], "1"⟩ tasks).2).1.status = 400 :=
  have h := deleteTaskById_then_not_found tasks "1" (.ok []) (.ok []) (.ok [])
    (by decide)
  ⟨by decide, h.2⟩

/-- C7 on the initial store with the empty body: the decoder rejects it, the answer
is 400 with the decoder's text and the store is the initial store. -/
theorem postTask_malformed_atomic_witness :
    sampleUnmarshal [] = .error "unexpected end of JSON input" ∧
    (postTask sampleUnmarshal ResponseWriter.fresh ⟨.ok [], ""⟩ tasks).1.status = 400 ∧
    (postTask sampleUnmarshal ResponseWriter.fresh ⟨.ok [], ""⟩ tasks).1.body
      = "unexpected end of JSON input\n" ∧
    (postTask sampleUnmarshal ResponseWriter.fresh ⟨.ok [], ""⟩ tasks).2 = tasks :=
  have h := (postTask_malformed_atomic sampleUnmarshal tasks "").1 []
    "unexpected end of JSON input" rfl
  ⟨rfl, h.2.1, h.2.2.1.trans (by decide), h.2.2.2⟩

end TodoList
